import Mathlib

/-!
Verification of the sqruff core (dialect-parameterised lexer, grammar-combinator
parser and rule substrate) against its natural-language specification.

The definitions below are a shallow embedding of the Rust sources:
  - crates/lib/src/dialects/ansi.rs  (segment model, ANSI grammar, lexer matchers)
  - src/rules/aliasing/AL08.rs       (rule AL08)
Components of the repository that are not part of the provided sources (the
generic lexer engine, the grammar-combinator engine, the crawler framework)
are modelled from the specification; each such definition carries a doc
comment starting with `Modelled from the spec:`.
-/

namespace Sqruff

/-- Model of `PositionMarker` (markers.rs, not in the provided sources).
Modelled from the spec: holds the source slice and the derived line/column
pair; the templated slice is omitted because no claim mentions templating. -/
structure PositionMarker where
  srcStart : Nat
  srcEnd : Nat
  line : Nat
  col : Nat
deriving Repr, DecidableEq

/-- The segment tree. Leaves carry their raw text (as a list of characters);
composite nodes carry a type tag, a class-type set (modelled as a list) and
an ordered child list, mirroring the uniform `Segment` interface of the
source (`get_type`, `class_types`, `get_segments`, `get_position_marker`). -/
inductive Seg where
  | leaf (kind : String) (raw : List Char) (pm : Option PositionMarker)
  | node (typ : String) (classTypes : List String) (children : List Seg) (pm : Option PositionMarker)

mutual

/-- Raw string of a segment: stored directly on a leaf, concatenation of the
children's raws on a composite (spec §3, and `Segment::get_raw`). -/
def Seg.raw : Seg → List Char
  | .leaf _ r _ => r
  | .node _ _ cs _ => Seg.rawList cs

/-- Concatenated raw of a list of segments. -/
def Seg.rawList : List Seg → List Char
  | [] => []
  | s :: rest => s.raw ++ Seg.rawList rest

end

/-- The type tag of a segment (`get_type`): the `kind` of a leaf, the `typ`
of a composite. -/
def Seg.typeOf : Seg → String
  | .leaf k _ _ => k
  | .node t _ _ _ => t

/-- The class-type set of a segment (`class_types`): empty for plain leaves
(lexer-produced leaves carry no class-type overrides in the sources), the
stored set for composites. -/
def Seg.classTypesOf : Seg → List String
  | .leaf _ _ _ => []
  | .node _ ct _ _ => ct

/-- Position marker accessor (`get_position_marker`). -/
def Seg.pmOf : Seg → Option PositionMarker
  | .leaf _ _ pm => pm
  | .node _ _ _ pm => pm

/-- Direct children of a segment (`get_segments`): empty for a leaf. -/
def Seg.childrenOf : Seg → List Seg
  | .leaf _ _ _ => []
  | .node _ _ cs _ => cs

/-! ## Node<T> and FileSegment identity (ansi.rs 2283-2347, 2385-2497)

`Node<T>` is the generic composite segment; `FileSegment` is the root
segment. Both carry a `uuid` identity. `Uuid::new_v4()` (a fresh random
identifier) is modelled by passing the fresh value explicitly. -/

/-- Model of `Node<T>` (ansi.rs 2283-2288): uuid, child list, position
marker. The `PhantomData` type marker is erased. -/
structure NodeSeg where
  uuid : Nat
  segments : List Seg
  position_marker : Option PositionMarker

/-- `Node::<T>::new()` (ansi.rs 2290-2298): a brand-new node with a fresh
uuid (`Uuid::new_v4()`, modelled as the explicit argument), no children and
no position marker. -/
def NodeSeg.mkFresh (freshUuid : Nat) : NodeSeg :=
  { uuid := freshUuid, segments := [], position_marker := none }

/-- `<Node<T> as Segment>::new(&self, segments)` (ansi.rs 2302-2310): builds
a node with the replacement child list but with `uuid: self.uuid` and
`position_marker: self.position_marker.clone()`. -/
def NodeSeg.new (self : NodeSeg) (segments : List Seg) : NodeSeg :=
  { uuid := self.uuid, segments := segments, position_marker := self.position_marker }

/-- The `from_segments!` macro (ansi.rs 32-38): clones `self` (the `Clone`
impl at ansi.rs 2355-2364 keeps `uuid: self.uuid`) and replaces `segments`. -/
def NodeSeg.from_segments (self : NodeSeg) (segments : List Seg) : NodeSeg :=
  { uuid := self.uuid, segments := segments, position_marker := self.position_marker }

/-- Model of `FileSegment` (ansi.rs 2385-2390). -/
structure FileSegment where
  segments : List Seg
  pos_marker : Option PositionMarker
  uuid : Nat

/-- `<FileSegment as Segment>::new(&self, segments)` (ansi.rs 2458-2461):
replacement child list, `uuid: self.uuid`, cloned position marker. -/
def FileSegment.new (self : FileSegment) (segments : List Seg) : FileSegment :=
  { segments := segments, uuid := self.uuid, pos_marker := self.pos_marker }

/-! ## class_types of the segments named by the claims -/

/-- `NodeTrait::class_types` default implementation (ansi.rs 2278-2280):
`<_>::default()`, i.e. the empty set. -/
def NodeTrait.defaultClassTypes : List String := []

/-- `ConcatSegment::TYPE` (ansi.rs 3500). -/
def ConcatSegment.TYPE : String := "concat"

/-- `ConcatSegment::class_types` (ansi.rs 3508-3510). -/
def ConcatSegment.class_types : List String := ["binary_operator"]

/-- `UnorderedSelectStatementSegment::TYPE` (ansi.rs 2560). -/
def UnorderedSelectStatementSegment.TYPE : String := "unordered_select_statement"

/-- `UnorderedSelectStatementSegment::class_types` (ansi.rs 2575-2577). -/
def UnorderedSelectStatementSegment.class_types : List String := ["select_clause"]

/-- `StatementSegment::TYPE` (ansi.rs 2604). -/
def StatementSegment.TYPE : String := "statement"

/-- `StatementSegment::class_types` (ansi.rs 2651-2653). -/
def StatementSegment.class_types : List String := ["statement"]

/-- `FunctionNameSegment::TYPE` (ansi.rs, function name segment). -/
def FunctionNameSegment.TYPE : String := "function_name"

/-- `FunctionNameSegment::class_types` (ansi.rs 3251-3253). -/
def FunctionNameSegment.class_types : List String := ["function_name"]

/-- `SelectClauseSegment::TYPE` (ansi.rs 2583). -/
def SelectClauseSegment.TYPE : String := "select_clause"

/-- `SelectClauseSegment` defines no `class_types` override (ansi.rs
2582-2599), so it inherits the default empty set. -/
def SelectClauseSegment.class_types : List String := NodeTrait.defaultClassTypes

/-- `<FileSegment as Segment>::class_types` (ansi.rs 2484-2486). -/
def FileSegment.class_types : List String := ["file"]

/-! ## Lexer matchers (ansi.rs `lexer_matchers()`, 1732-2271)

Each Rust matcher is a regex (`RegexLexer`) or a fixed string
(`StringLexer`). A matcher function here has type `List Char → Option Nat`;
`some k` means the matcher consumed `k + 1` characters (so a successful
match always consumes at least one character, as every one of these
regexes requires). -/

/-- Quote characters, by code point: 39 is the single quote, 34 the double
quote, 96 the back quote. -/
def squoteC : Char := Char.ofNat 39

def dquoteC : Char := Char.ofNat 34

def bquoteC : Char := Char.ofNat 96

/-- Number of leading characters of `s` satisfying `p`. -/
def takeWhileCount (p : Char → Bool) : List Char → Nat
  | [] => 0
  | c :: rest => if p c then takeWhileCount p rest + 1 else 0

/-- Longest-nonempty-run matcher: regex `p+` for a character class `p`. -/
def runMatch (p : Char → Bool) (s : List Char) : Option Nat :=
  match takeWhileCount p s with
  | 0 => none
  | n + 1 => some n

/-- `Bool`-valued list-head equality (is `lit` an initial run of `s`?). -/
def leadEq : List Char → List Char → Bool
  | [], _ => true
  | _ :: _, [] => false
  | a :: as, b :: bs => a == b && leadEq as bs

/-- The character class of Rust `\s` as used by this lexer; the whitespace
regex is `[^\S\r\n]+`, i.e. whitespace other than `\r` and `\n`. -/
def rustSpace (c : Char) : Bool :=
  c.isWhitespace || c = Char.ofNat 0x0b || c = Char.ofNat 0x0c || c = Char.ofNat 0xa0

/-- `[^\S\r\n]`: a whitespace character that is neither `\r` nor `\n`
(ansi.rs 1740: the whitespace matcher must not swallow line breaks). -/
def wsChar (c : Char) : Bool :=
  rustSpace c && !(c = '\r') && !(c = '\n')

/-- Word characters `[0-9a-zA-Z_]` (ansi.rs 2262; also stands in for `\w`,
restricted to ASCII as in all identifiers these claims touch). -/
def wordChar (c : Char) : Bool :=
  c.isAlpha || c.isDigit || c = '_'

/-- Whitespace matcher: regex `[^\S\r\n]+` (ansi.rs 1737-1747; the same
regex is the block-comment trimmer at 1779-1789). -/
def whitespaceFn (s : List Char) : Option Nat :=
  runMatch wsChar s

/-- Inline comment matcher: regex `(--|#)[^\n]*` (ansi.rs 1748-1761). -/
def inlineCommentFn (s : List Char) : Option Nat :=
  if leadEq ['-', '-'] s then
    some (1 + takeWhileCount (fun c => !(c = '\n')) (List.drop 2 s))
  else if leadEq ['#'] s then
    some (takeWhileCount (fun c => !(c = '\n')) (List.drop 1 s))
  else none

/-- Offset of the first occurrence of the two-character sequence found by
scanning for a star immediately followed by a slash. -/
def findStarSlash : List Char → Option Nat
  | '*' :: '/' :: _ => some 0
  | _ :: rest => (findStarSlash rest).map (· + 1)
  | [] => none

/-- Block comment matcher: regex `\/\*([^\*]|\*(?!\/))*\*\/` (ansi.rs
1762-1792): the repetition can never cross a star-slash pair, so the match
runs from the opening pair to the first closing pair. -/
def blockCommentFn (s : List Char) : Option Nat :=
  match s with
  | '/' :: '*' :: rest => (findStarSlash rest).map (fun i => i + 3)
  | _ => none

/-- Newline matcher: regex `\r\n|\n` (ansi.rs 1890-1900; the same regex is
the block-comment subdivider at 1768-1778). -/
def newlineFn : List Char → Option Nat
  | '\r' :: '\n' :: _ => some 1
  | '\n' :: _ => some 0
  | _ => none

/-- Body of the single-quote matcher after the opening quote: regex
`([^'\\]|\\.|'')*'` with the greedy/backtracking behaviour of the engine;
returns the number of characters consumed, closing quote included. The
escape `\\.` cannot take a line break (`.` excludes `\n`); a doubled quote
is preferred as content, falling back to closing at the first quote. -/
def squoteBody : List Char → Option Nat
  | [] => none
  | c :: rest =>
    if c = '\\' then
      match rest with
      | [] => none
      | c2 :: rest2 => if c2 = '\n' then none else (squoteBody rest2).map (· + 2)
    else if c = squoteC then
      match rest with
      | c2 :: rest2 =>
        if c2 = squoteC then
          match squoteBody rest2 with
          | some n => some (n + 2)
          | none => some 1
        else some 1
      | [] => some 1
    else (squoteBody rest).map (· + 1)

/-- Single-quote matcher: regex `'([^'\\]|\\.|'')*'` (ansi.rs 1793-1809). -/
def singleQuoteFn (s : List Char) : Option Nat :=
  match s with
  | c :: rest => if c = squoteC then squoteBody rest else none
  | [] => none

/-- Body of the double-quote matcher after the opening quote: regex
`([^"\\]|\\.)*"`; returns characters consumed, closing quote included. -/
def dquoteBody : List Char → Option Nat
  | [] => none
  | c :: rest =>
    if c = '\\' then
      match rest with
      | [] => none
      | c2 :: rest2 => if c2 = '\n' then none else (dquoteBody rest2).map (· + 2)
    else if c = dquoteC then some 1
    else (dquoteBody rest).map (· + 1)

/-- Double-quote matcher: regex `"([^"\\]|\\.)*"` (ansi.rs 1810-1826). -/
def doubleQuoteFn (s : List Char) : Option Nat :=
  match s with
  | c :: rest => if c = dquoteC then dquoteBody rest else none
  | [] => none

/-- Offset of the first character of `s` equal to `c`. -/
def findChar (c : Char) : List Char → Option Nat
  | [] => none
  | d :: rest => if d = c then some 0 else (findChar c rest).map (· + 1)

/-- Back-quote matcher: regex `` `[^`]*` `` (ansi.rs 1827-1843): an opening
back quote, any characters up to the next back quote, the closing quote. -/
def backQuoteFn (s : List Char) : Option Nat :=
  match s with
  | c :: rest =>
    if c = bquoteC then (findChar bquoteC rest).map (fun i => i + 1) else none
  | [] => none

/-- Lazy scan of the dollar-quote body: regex `[^\$]*?` followed by the
closing `\$tag\$`; stops at the first dollar sign, which must begin the
closing delimiter. Returns the body length (closing excluded). -/
def dollarScan (closing : List Char) : List Char → Option Nat
  | [] => none
  | c :: rest =>
    if leadEq closing (c :: rest) then some 0
    else if c = '$' then none
    else (dollarScan closing rest).map (· + 1)

/-- Dollar-quote matcher: regex `\$(\w*)\$[^\$]*?\$\1\$` (ansi.rs
1844-1861), with the backreference `\1` modelled exactly: the closing
delimiter must repeat the opening tag. -/
def dollarQuoteFn (s : List Char) : Option Nat :=
  match s with
  | '$' :: rest =>
    let tagLen := takeWhileCount wordChar rest
    let tag := List.take tagLen rest
    match List.drop tagLen rest with
    | c :: body =>
      if c = '$' then
        match dollarScan ('$' :: (tag ++ ['$'])) body with
        | some j => some (1 + tagLen + 1 + j + (tagLen + 2) - 1)
        | none => none
      else none
    | [] => none
  | _ => none

/-- Count of leading decimal digits. -/
def digitsCount (s : List Char) : Nat := takeWhileCount Char.isDigit s

/-- The atomic group of the numeric-literal regex (ansi.rs 1865-1878,
2237-2256): `(?>\d+\.\d+|\d+\.(?![\.\w])|\.\d+|\d+)`. Returns the number of
characters consumed; being atomic, no backtracking into it is possible. -/
def numericAtomic (s : List Char) : Option Nat :=
  let d1 := digitsCount s
  if d1 = 0 then
    match s with
    | '.' :: rest =>
      let d := digitsCount rest
      if d = 0 then none else some (1 + d)
    | _ => none
  else
    match List.drop d1 s with
    | '.' :: rest =>
      let d2 := digitsCount rest
      if d2 ≠ 0 then some (d1 + 1 + d2)
      else
        match rest with
        | [] => some (d1 + 1)
        | c :: _ => if c = '.' || wordChar c then some d1 else some (d1 + 1)
    | _ => some d1

/-- Core of the optional exponent `[eE][+-]?\d+`. -/
def expCore (s : List Char) : Option Nat :=
  match s with
  | c :: rest =>
    if c = 'e' || c = 'E' then
      match rest with
      | c2 :: rest2 =>
        if c2 = '+' || c2 = '-' then
          let d := digitsCount rest2
          if d = 0 then none else some (2 + d)
        else
          let d := digitsCount rest
          if d = 0 then none else some (1 + d)
      | [] => none
    else none
  | [] => none

/-- Candidate lengths for the optional exponent `(\.?[eE][+-]?\d+)?` in
greedy order (with leading dot, without, empty). -/
def expCands (s : List Char) : List Nat :=
  (match s with
   | '.' :: rest => ((expCore rest).map (· + 1)).toList
   | _ => []) ++ (expCore s).toList ++ [0]

/-- The trailing assertion `((?<=\.)|(?=\b))` of the numeric-literal regex,
checked after consuming `n` characters of `s`: either the last consumed
character is a dot, or the position is a word boundary. -/
def numericBoundary (s : List Char) (n : Nat) : Bool :=
  let lastc := (List.take n s).getLast?
  let nextc := (List.drop n s).head?
  (lastc == some '.') ||
    (match lastc, nextc with
     | some lc, some nc => wordChar lc != wordChar nc
     | some lc, none => wordChar lc
     | none, _ => false)

/-- Numeric-literal matcher (ansi.rs 1865-1878): atomic group, then the
longest exponent candidate for which the trailing assertion holds. -/
def numericFn (s : List Char) : Option Nat :=
  match numericAtomic s with
  | none => none
  | some a =>
    match (expCands (List.drop a s)).find? (fun e => numericBoundary s (a + e)) with
    | some e => some (a + e - 1)
    | none => none

/-- Like-operator matcher: regex `!?~~?\*?` (ansi.rs 1879-1889). -/
def likeOperatorFn (s : List Char) : Option Nat :=
  let (b, s1) : Nat × List Char :=
    match s with
    | '!' :: rest => (1, rest)
    | _ => (0, s)
  match s1 with
  | '~' :: rest1 =>
    let (t, s2) : Nat × List Char :=
      match rest1 with
      | '~' :: rest2 => (1, rest2)
      | _ => (0, rest1)
    let star : Nat :=
      match s2 with
      | '*' :: _ => 1
      | _ => 0
    some (b + 1 + t + star - 1)
  | _ => none

/-- `StringLexer` matcher (lexer.rs, via ansi.rs 1901-2236): matches the
fixed literal at the head of the input. -/
def stringFn (lit : String) : List Char → Option Nat := fun s =>
  match lit.data with
  | [] => none
  | l => if leadEq l s then some (l.length - 1) else none

/-- Word matcher: regex `[0-9a-zA-Z_]+` (ansi.rs 2259-2269), the fallback
for anything else that looks like SQL code. -/
def wordFn (s : List Char) : Option Nat :=
  runMatch wordChar s

/-! ## The lexer engine

Modelled from the spec: the generic lexer engine (`Lexer::lex` in
core/parser/lexer.rs is not among the provided sources). Matchers are tried
in dialect order at each cursor position; the first success consumes its
match; if none matches, one character becomes an `unlexable` segment; a
subdividing matcher splits its matched text at subdivider matches, with
trimmer matches peeled off the remnants as their own segments; finally an
`end_of_file` segment is appended. -/

/-- A subdivider or trimmer matcher: produced-segment kind plus matcher
function. -/
structure SubMatcher where
  kind : String
  fn : List Char → Option Nat

/-- A top-level lexer matcher: produced-segment kind, matcher function,
optional subdivider and trimmer. -/
structure LexMatcher where
  kind : String
  fn : List Char → Option Nat
  subdivider : Option SubMatcher
  trimmer : Option SubMatcher

/-- The ANSI lexer matcher list (ansi.rs 1732-2271), in source order. Only
the block-comment matcher subdivides (by newline) and trims (by
whitespace). -/
def ansiLexerMatchers : List LexMatcher :=
  [⟨"whitespace", whitespaceFn, none, none⟩,
   ⟨"inline_comment", inlineCommentFn, none, none⟩,
   ⟨"block_comment", blockCommentFn, some ⟨"newline", newlineFn⟩,
     some ⟨"whitespace", whitespaceFn⟩⟩,
   ⟨"single_quote", singleQuoteFn, none, none⟩,
   ⟨"double_quote", doubleQuoteFn, none, none⟩,
   ⟨"back_quote", backQuoteFn, none, none⟩,
   ⟨"dollar_quote", dollarQuoteFn, none, none⟩,
   ⟨"numeric_literal", numericFn, none, none⟩,
   ⟨"like_operator", likeOperatorFn, none, none⟩,
   ⟨"newline", newlineFn, none, none⟩,
   ⟨"casting_operator", stringFn "::", none, none⟩,
   ⟨"equals", stringFn "=", none, none⟩,
   ⟨"greater_than", stringFn ">", none, none⟩,
   ⟨"less_than", stringFn "<", none, none⟩,
   ⟨"not", stringFn "!", none, none⟩,
   ⟨"dot", stringFn ".", none, none⟩,
   ⟨"comma", stringFn ",", none, none⟩,
   ⟨"plus", stringFn "+", none, none⟩,
   ⟨"minus", stringFn "-", none, none⟩,
   ⟨"divide", stringFn "/", none, none⟩,
   ⟨"percent", stringFn "%", none, none⟩,
   ⟨"question", stringFn "?", none, none⟩,
   ⟨"ampersand", stringFn "&", none, none⟩,
   ⟨"vertical_bar", stringFn "|", none, none⟩,
   ⟨"caret", stringFn "^", none, none⟩,
   ⟨"star", stringFn "*", none, none⟩,
   ⟨"start_bracket", stringFn "(", none, none⟩,
   ⟨"end_bracket", stringFn ")", none, none⟩,
   ⟨"start_square_bracket", stringFn "[", none, none⟩,
   ⟨"end_square_bracket", stringFn "]", none, none⟩,
   ⟨"start_curly_bracket", stringFn "\x7b", none, none⟩,
   ⟨"end_curly_bracket", stringFn "\x7d", none, none⟩,
   ⟨"colon", stringFn ":", none, none⟩,
   ⟨"semicolon", stringFn ";", none, none⟩,
   ⟨"word", wordFn, none, none⟩]

/-- Modelled from the spec: peel leading trimmer matches off a remnant as
their own segments; the rest of the remnant keeps the parent kind. The
`fuel` argument (always instantiated with the remnant length, which bounds
the number of loop steps since every match consumes at least a character)
makes the recursion structural so that the function reduces by `rfl`. -/
def trimGoF (m : SubMatcher) (parentKind : String) : Nat → List Char → List Seg
  | _, [] => []
  | 0, _ :: _ => []
  | fuel + 1, c :: rest =>
    match m.fn (c :: rest) with
    | some k =>
      Seg.leaf m.kind (List.take (k + 1) (c :: rest)) none ::
        trimGoF m parentKind fuel (List.drop (k + 1) (c :: rest))
    | none => [Seg.leaf parentKind (c :: rest) none]

/-- `trimGoF` at adequate fuel. -/
def trimGo (m : SubMatcher) (parentKind : String) (t : List Char) : List Seg :=
  trimGoF m parentKind t.length t

/-- Modelled from the spec: a remnant between subdivider matches, trimmed if
the matcher has a trimmer. -/
def trimPieces (tr : Option SubMatcher) (parentKind : String) (t : List Char) : List Seg :=
  match t with
  | [] => []
  | _ :: _ =>
    match tr with
    | none => [Seg.leaf parentKind t none]
    | some m => trimGo m parentKind t

/-- Offset and match length of the earliest subdivider match inside `t`. -/
def findDiv (sub : SubMatcher) : List Char → Option (Nat × Nat)
  | [] => none
  | c :: rest =>
    match sub.fn (c :: rest) with
    | some k => some (0, k)
    | none => (findDiv sub rest).map (fun p => (p.1 + 1, p.2))

/-- Modelled from the spec: split matched text at subdivider matches; each
subdivider match becomes its own segment, remnants are trimmed. Structural
on `fuel` (always the text length) so that it reduces by `rfl`. -/
def subdivideF (sub : SubMatcher) (tr : Option SubMatcher) (parentKind : String) :
    Nat → List Char → List Seg
  | _, [] => []
  | 0, _ :: _ => []
  | fuel + 1, c :: rest =>
    match findDiv sub (c :: rest) with
    | none => trimPieces tr parentKind (c :: rest)
    | some (j, k) =>
      trimPieces tr parentKind (List.take j (c :: rest)) ++
        (Seg.leaf sub.kind (List.take (k + 1) (List.drop j (c :: rest))) none ::
          subdivideF sub tr parentKind fuel (List.drop (j + (k + 1)) (c :: rest)))

/-- `subdivideF` at adequate fuel. -/
def subdivide (sub : SubMatcher) (tr : Option SubMatcher) (parentKind : String)
    (t : List Char) : List Seg :=
  subdivideF sub tr parentKind t.length t

/-- Modelled from the spec: the segments produced from one successful
top-level match. -/
def processMatch (m : LexMatcher) (text : List Char) : List Seg :=
  match m.subdivider with
  | none => [Seg.leaf m.kind text none]
  | some sub => subdivide sub m.trimmer m.kind text

/-- First matcher in the list succeeding on `s`, with its result. -/
def firstMatch : List LexMatcher → List Char → Option (LexMatcher × Nat)
  | [], _ => none
  | m :: ms, s =>
    match m.fn s with
    | some k => some (m, k)
    | none => firstMatch ms s

/-- Modelled from the spec: the main lexer loop. Matchers are tried in
order; on success the match is consumed (and possibly subdivided); if none
matches, one character becomes an `unlexable` segment. Structural on `fuel`
(always the input length) so that it reduces by `rfl`. -/
def lexLoopF (ms : List LexMatcher) : Nat → List Char → List Seg
  | _, [] => []
  | 0, _ :: _ => []
  | fuel + 1, c :: rest =>
    match firstMatch ms (c :: rest) with
    | some (m, k) =>
      processMatch m (List.take (k + 1) (c :: rest)) ++
        lexLoopF ms fuel (List.drop (k + 1) (c :: rest))
    | none => Seg.leaf "unlexable" [c] none :: lexLoopF ms fuel rest

/-- `lexLoopF` at adequate fuel. -/
def lexLoop (ms : List LexMatcher) (s : List Char) : List Seg :=
  lexLoopF ms s.length s

/-- The ANSI lexer: the lexer loop over the ANSI matcher list, with the
terminal `end_of_file` segment appended (spec §4.1). -/
def lexAnsi (s : List Char) : List Seg :=
  lexLoop ansiLexerMatchers s ++ [Seg.leaf "end_of_file" [] none]

/-- A segment is whitespace-clean when, if its kind is `whitespace`, every
character of its raw is in the whitespace-without-line-breaks class. -/
def wsClean (seg : Seg) : Bool :=
  !(seg.typeOf == "whitespace") || seg.raw.all wsChar

/-- A segment is line-break-clean when, if its kind is `whitespace`, its raw
contains neither `\n` nor `\r`. -/
def noCRLF (seg : Seg) : Bool :=
  !(seg.typeOf == "whitespace") || seg.raw.all (fun c => !(c = '\n') && !(c = '\r'))

/-! ## Rule AL08 (src/rules/aliasing/AL08.rs)

The rule body is translated from the source. The segment accessors it uses
(`children`, `child`, `get_raw_upper`, `source_position`) live in
core/parser/segments/base.rs and markers.rs, which are not among the
provided sources; they are modelled from the spec and from their use sites.
-/

/-- Modelled from the spec: `Segment::children(seg_types)` — the direct
children whose type is one of `seg_types`. -/
def Seg.children (seg : Seg) (types : List String) : List Seg :=
  seg.childrenOf.filter (fun c => types.contains c.typeOf)

/-- Modelled from the spec: `Segment::child(seg_types)` — the first direct
child whose type is one of `seg_types`. -/
def Seg.child (seg : Seg) (types : List String) : Option Seg :=
  (seg.children types).head?

/-- `get_raw_upper`: the raw string, uppercased. -/
def Seg.rawUpper (seg : Seg) : List Char :=
  seg.raw.map Char.toUpper

/-- Modelled from the spec: `source_position().0` — the line number of the
segment's position marker (the rule unwraps a present marker; absent
markers default to 0 here). -/
def Seg.lineOf (seg : Seg) : Nat :=
  (seg.pmOf.map PositionMarker.line).getD 0

/-- Model of `LintResult` (core/rules/base.rs, not in the provided
sources). Modelled from the spec: anchor segment and optional description;
AL08 passes no fixes and no memo, so those fields are omitted. -/
structure LintResult where
  anchor : Option Seg
  description : Option String

/-- Association-list model of the rule's `HashMap<String, _>`: lookup by
key (the rule only ever looks up and inserts fresh keys, so list order is
irrelevant to its behaviour). -/
def lookupAssoc : List (List Char × Seg) → List Char → Option Seg
  | [], _ => none
  | (k, v) :: rest, key => if k = key then some v else lookupAssoc rest key

/-- The violation description built by AL08 (AL08.rs 43):
`format!("Reuse of column alias {alias} from line {line_no}.")`. -/
def reuseDescription (aliasRaw : String) (line_no : Nat) : String :=
  "Reuse of column alias " ++ aliasRaw ++ " from line " ++ toString line_no ++ "."

/-- The alias key of AL08 (AL08.rs 30): the raw uppercased, with
double-quote, single-quote and back-quote characters removed. -/
def al08Key (ca : Seg) : List Char :=
  ca.rawUpper.filter (fun c => !(c = dquoteC) && !(c = squoteC) && !(c = bquoteC))

/-- The loop body of `RuleAL08::eval` (AL08.rs 18-49): for each
`select_clause_element`, skip it when it has an `alias_expression` child,
otherwise take the last segment of its `column_reference` child (`Vec::pop`
in the source); report a violation when the normalised key was already
recorded (leaving the map unchanged, as `Entry::Occupied` does), record the
clause element under the key otherwise. -/
def evalGo : List Seg → List (List Char × Seg) → List LintResult
  | [], _ => []
  | clause_element :: rest, used =>
    let column_alias : Option Seg :=
      if (clause_element.child ["alias_expression"]).isSome then none
      else
        match clause_element.child ["column_reference"] with
        | some column_reference => column_reference.childrenOf.getLast?
        | none => none
    match column_alias with
    | none => evalGo rest used
    | some ca =>
      let key := al08Key ca
      match lookupAssoc used key with
      | some previous =>
        { anchor := some ca,
          description := some (reuseDescription (String.mk ca.raw) previous.lineOf) } ::
          evalGo rest used
      | none => evalGo rest ((key, clause_element) :: used)

/-- `RuleAL08::eval` (AL08.rs 14-52): fold the loop over the
`select_clause_element` children of the context segment, starting from an
empty alias map. -/
def RuleAL08.eval (segment : Seg) : List LintResult :=
  evalGo (segment.children ["select_clause_element"]) []

/-- `RuleAL08::crawl_behaviour` (AL08.rs 54-56): a segment seeker for
`select_clause`. -/
def RuleAL08.crawlTargets : List String := ["select_clause"]

mutual

/-- Modelled from the spec: `SegmentSeekerCrawler` — pre-order walk
invoking the rule on every segment whose class-type set (a superset of the
kind per spec §3, modelled as the stored set together with the type tag)
intersects the target kinds. -/
def crawlSeek (targets : List String) : Seg → List Seg
  | .leaf k r pm =>
    if targets.contains (Seg.leaf k r pm).typeOf then [.leaf k r pm] else []
  | .node t ct cs pm =>
    (if targets.contains t || ct.any (fun c => targets.contains c)
     then [Seg.node t ct cs pm] else []) ++ crawlSeekList targets cs

/-- Pre-order walk over a child list. -/
def crawlSeekList (targets : List String) : List Seg → List Seg
  | [] => []
  | s :: rest => crawlSeek targets s ++ crawlSeekList targets rest

end

/-- Modelled from the spec: linting one parsed file with rule AL08 — every
crawler hit is fed to `eval` and the violations are collected in order. -/
def lintAL08 (root : Seg) : List LintResult :=
  (crawlSeek RuleAL08.crawlTargets root).flatMap RuleAL08.eval

/-! ### The CST of `"select foo, foo"`

Modelled from the spec: the parse tree of `"select foo, foo"` under the
ANSI dialect, following spec §8 scenario 3 (file → statement →
select_statement → select_clause with keyword and two
select_clause_elements, each a column_reference over a single naked
identifier). Position markers carry the 1-based line/column of each token
in `"select foo, foo"`. The class-type sets are those of the source
(`statement` for StatementSegment, empty defaults elsewhere). -/

def fooIdent1 : Seg :=
  .leaf "naked_identifier" ['f', 'o', 'o'] (some ⟨7, 10, 1, 8⟩)

def fooIdent2 : Seg :=
  .leaf "naked_identifier" ['f', 'o', 'o'] (some ⟨12, 15, 1, 13⟩)

def c6elem1 : Seg :=
  .node "select_clause_element" []
    [.node "column_reference" [] [fooIdent1] (some ⟨7, 10, 1, 8⟩)]
    (some ⟨7, 10, 1, 8⟩)

def c6elem2 : Seg :=
  .node "select_clause_element" []
    [.node "column_reference" [] [fooIdent2] (some ⟨12, 15, 1, 13⟩)]
    (some ⟨12, 15, 1, 13⟩)

def c6selectClause : Seg :=
  .node "select_clause" []
    [.leaf "keyword" ['s', 'e', 'l', 'e', 'c', 't'] (some ⟨0, 6, 1, 1⟩),
     .leaf "whitespace" [' '] (some ⟨6, 7, 1, 7⟩),
     c6elem1,
     .leaf "comma" [','] (some ⟨10, 11, 1, 11⟩),
     .leaf "whitespace" [' '] (some ⟨11, 12, 1, 12⟩),
     c6elem2]
    (some ⟨0, 15, 1, 1⟩)

def c6tree : Seg :=
  .node "file" ["file"]
    [.node "statement" ["statement"]
      [.node "select_statement" [] [c6selectClause] (some ⟨0, 15, 1, 1⟩)]
      (some ⟨0, 15, 1, 1⟩)]
    (some ⟨0, 15, 1, 1⟩)

/-! ### A clause exercising the AL08 key normalisation

Elements `foo`, `FOO`, `"foo"` and an aliased `foo`, as in a clause
`select foo, FOO, "foo", foo as other`. -/

def c10elemFoo : Seg :=
  .node "select_clause_element" []
    [.node "column_reference" []
      [.leaf "naked_identifier" ['f', 'o', 'o'] (some ⟨7, 10, 1, 8⟩)]
      (some ⟨7, 10, 1, 8⟩)]
    (some ⟨7, 10, 1, 8⟩)

def c10elemFOO : Seg :=
  .node "select_clause_element" []
    [.node "column_reference" []
      [.leaf "naked_identifier" ['F', 'O', 'O'] (some ⟨12, 15, 1, 13⟩)]
      (some ⟨12, 15, 1, 13⟩)]
    (some ⟨12, 15, 1, 13⟩)

def c10elemQuoted : Seg :=
  .node "select_clause_element" []
    [.node "column_reference" []
      [.leaf "quoted_identifier" [dquoteC, 'f', 'o', 'o', dquoteC]
        (some ⟨17, 22, 1, 18⟩)]
      (some ⟨17, 22, 1, 18⟩)]
    (some ⟨17, 22, 1, 18⟩)

def c10elemAliased : Seg :=
  .node "select_clause_element" []
    [.node "column_reference" []
      [.leaf "naked_identifier" ['f', 'o', 'o'] (some ⟨24, 27, 1, 25⟩)]
      (some ⟨24, 27, 1, 25⟩),
     .node "alias_expression" []
      [.leaf "keyword" ['a', 's'] (some ⟨28, 30, 1, 29⟩),
       .leaf "naked_identifier" ['o', 't', 'h', 'e', 'r'] (some ⟨31, 36, 1, 32⟩)]
      (some ⟨28, 36, 1, 29⟩)]
    (some ⟨24, 36, 1, 25⟩)

def c10clause : Seg :=
  .node "select_clause" []
    [.leaf "keyword" ['s', 'e', 'l', 'e', 'c', 't'] (some ⟨0, 6, 1, 1⟩),
     c10elemFoo, c10elemFOO, c10elemQuoted, c10elemAliased]
    (some ⟨0, 36, 1, 1⟩)

/-- A clause element with no `column_reference` child (e.g. a literal). -/
def c10elemNoColRef : Seg :=
  .node "select_clause_element" []
    [.leaf "numeric_literal" ['1'] (some ⟨7, 8, 1, 8⟩)]
    (some ⟨7, 8, 1, 8⟩)

/-! ## Grammar values (translated from the ANSI dialect registrations)

The combinator types (`Ref`, `Sequence`, `one_of`, `AnyNumberOf`,
`Delimited`, parsers) live in core/parser/grammar, which is not among the
provided sources; the `Grammar` syntax below records exactly what the ANSI
dialect file constructs, and the matcher below gives it the semantics the
spec describes (§4.2). -/

inductive Grammar where
  | ref (name : String)
  | keyword (kw : String)
  | optionalG (g : Grammar)
  | sequence (items : List Grammar)
  | oneOf (items : List Grammar)
  | anyNumberOf (items : List Grammar) (maxTimes : Option Nat)
  | delimited (items : List Grammar) (delim : Grammar) (allowTrailing : Bool)
  | stringParser (template : String) (kind : String)
  | typedParser (matchKind : String) (outKind : String)
  | nakedIdentifier
  | node (typ : String) (inner : Grammar)
  | nothing

/-- A dialect's name-indexed grammar store (spec §4.3), as an association
list. -/
abbrev GEnv := List (String × Grammar)

/-- Late-bound lookup of a production by name. -/
def lookupG : GEnv → String → Option Grammar
  | [], _ => none
  | (n, g) :: rest, name => if n = name then some g else lookupG rest name

/-- Modelled from the spec: `Segment::is_code` (base.rs is not among the
provided sources) — whitespace, line breaks, comments, the end-of-file
marker and unlexable spans are non-code; everything else is code. -/
def isCodeTok (seg : Seg) : Bool :=
  !(["whitespace", "newline", "inline_comment", "block_comment",
     "end_of_file", "unlexable"].contains seg.typeOf)

/-- The class-type sets the source declares for the node types this
development instantiates (ansi.rs: StatementSegment 2651,
UnorderedSelectStatementSegment 2575, ConcatSegment 3508,
FunctionNameSegment 3251; every other `NodeTrait` keeps the empty
default). -/
def classTypesFor (typ : String) : List String :=
  if typ = "statement" then ["statement"]
  else if typ = "unordered_select_statement" then ["select_clause"]
  else if typ = "concat" then ["binary_operator"]
  else if typ = "function_name" then ["function_name"]
  else []

/-- Modelled from the spec: the reserved-keyword set used as the
anti-template of `NakedIdentifierSegment`. The file ansi_keywords.rs is not
among the provided sources; this list carries the classic ANSI reserved
words the embedded productions touch. -/
def reservedKeywords : List (List Char) :=
  ["SELECT", "FROM", "WHERE", "GROUP", "ORDER", "BY", "HAVING", "UNION",
   "ALL", "AND", "OR", "NOT", "AS", "JOIN", "ON", "INNER", "LEFT", "RIGHT",
   "FULL", "CROSS", "CASE", "WHEN", "THEN", "ELSE", "END", "NULL", "TRUE",
   "FALSE", "DISTINCT", "INTO", "VALUES", "SET"].map String.data

/-- The `NakedIdentifierSegment` regex parser (ansi.rs 413-436): the
uppercased raw must fully match `[A-Z0-9_]*[A-Z][A-Z0-9_]*` and must not
fully match the anti-template built from the reserved keywords. -/
def nakedIdentOk (u : List Char) : Bool :=
  u.all (fun c => c.isUpper || c.isDigit || c = '_') &&
    u.any (fun c => c.isUpper) && !(reservedKeywords.contains u)

/-- Split a token stream into its leading non-code run and the remainder
(the gap handling of sequence-like grammars, spec §4.2). -/
def gapSpan (toks : List Seg) : List Seg × List Seg :=
  (toks.takeWhile (fun t => !isCodeTok t), toks.dropWhile (fun t => !isCodeTok t))

mutual

/-- Modelled from the spec (§4.2): the grammar matcher. A result
`some (matched, rest)` splits the consumed prefix (possibly rewrapped into
nodes) from the remainder; `none` is no-match. Structural on `fuel`; every
concrete run below uses fuel far above the needed recursion depth. `Ref`
late-binds through the environment; `keyword` accepts a `word` token whose
uppercase raw equals the keyword and retags it (spec §4.3); string parsers
retag a single matching code token; `one_of` takes the longest match with
earlier declaration winning ties; `AnyNumberOf` repeats up to `max_times`;
`Delimited` matches one-or-more items separated by the delimiter, with
`allow_trailing` permitting a final delimiter; sequence-like grammars let
non-code gaps through between elements (`allow_gaps` defaults to true in
every production embedded here). -/
def matchG (env : GEnv) : Nat → Grammar → List Seg → Option (List Seg × List Seg)
  | 0, _, _ => none
  | fuel + 1, g, toks =>
    match g with
    | .ref name =>
      match lookupG env name with
      | some g2 => matchG env fuel g2 toks
      | none => none
    | .keyword kw =>
      match toks with
      | .leaf k r pm :: rest =>
        if k = "word" && (r.map Char.toUpper) = kw.data then
          some ([.leaf "keyword" r pm], rest)
        else none
      | _ => none
    | .stringParser template kind =>
      match toks with
      | .leaf k r pm :: rest =>
        if isCodeTok (.leaf k r pm) &&
            (r.map Char.toUpper) = (template.data.map Char.toUpper) then
          some ([.leaf kind r pm], rest)
        else none
      | _ => none
    | .typedParser mk outk =>
      match toks with
      | .leaf k r pm :: rest =>
        if k = mk then some ([.leaf outk r pm], rest) else none
      | _ => none
    | .nakedIdentifier =>
      match toks with
      | .leaf k r pm :: rest =>
        if k = "word" && nakedIdentOk (r.map Char.toUpper) then
          some ([.leaf "naked_identifier" r pm], rest)
        else none
      | _ => none
    | .optionalG g2 =>
      match matchG env fuel g2 toks with
      | some res => some res
      | none => some ([], toks)
    | .node typ inner =>
      match matchG env fuel inner toks with
      | some (m, rest) => some ([.node typ (classTypesFor typ) m none], rest)
      | none => none
    | .sequence items => matchItems env fuel items toks
    | .oneOf items => matchLongest env fuel items toks
    | .anyNumberOf items maxT => some (matchRep env fuel items maxT toks)
    | .delimited items delim allowTrailing =>
      matchDelim env fuel items delim allowTrailing toks
    | .nothing => none

/-- Sequence elements in order, with non-code gaps allowed in between; an
optional element that fails consumes nothing beyond the gap (which stays in
the match, as gaps between elements do). -/
def matchItems (env : GEnv) : Nat → List Grammar → List Seg →
    Option (List Seg × List Seg)
  | 0, _, _ => none
  | _ + 1, [], toks => some ([], toks)
  | fuel + 1, item :: rest, toks =>
    match matchG env fuel item (gapSpan toks).2 with
    | some (m, rest2) =>
      (match matchItems env fuel rest rest2 with
       | some (ms, restf) => some ((gapSpan toks).1 ++ m ++ ms, restf)
       | none => none)
    | none => none

/-- `one_of`: longest match wins, earlier alternatives win ties. -/
def matchLongest (env : GEnv) : Nat → List Grammar → List Seg →
    Option (List Seg × List Seg)
  | 0, _, _ => none
  | _ + 1, [], _ => none
  | fuel + 1, g :: rest, toks =>
    match matchG env fuel g toks, matchLongest env fuel rest toks with
    | some (m1, r1), some (m2, r2) =>
      if (Seg.rawList m2).length > (Seg.rawList m1).length then some (m2, r2)
      else some (m1, r1)
    | some x, none => some x
    | none, some y => some y
    | none, none => none

/-- `AnyNumberOf`: greedy repetition (minimum zero) up to `max_times`,
gaps allowed between repetitions; an empty or failed repetition stops. -/
def matchRep (env : GEnv) : Nat → List Grammar → Option Nat → List Seg →
    List Seg × List Seg
  | 0, _, _, toks => ([], toks)
  | fuel + 1, items, maxT, toks =>
    if maxT = some 0 then ([], toks)
    else
      match matchLongest env fuel items (gapSpan toks).2 with
      | none => ([], toks)
      | some (m, rest) =>
        if m.isEmpty then ([], toks)
        else
          let next := matchRep env fuel items (maxT.map (· - 1)) rest
          ((gapSpan toks).1 ++ m ++ next.1, next.2)

/-- `Delimited`: one item, then the delimiter loop. -/
def matchDelim (env : GEnv) : Nat → List Grammar → Grammar → Bool →
    List Seg → Option (List Seg × List Seg)
  | 0, _, _, _, _ => none
  | fuel + 1, items, delim, allowTrailing, toks =>
    match matchLongest env fuel items toks with
    | none => none
    | some (m1, rest1) =>
      let next := matchDelimLoop env fuel items delim allowTrailing rest1
      some (m1 ++ next.1, next.2)

/-- The delimiter loop of `Delimited`: repeatedly take a delimiter and a
following item; a delimiter with no item after it is kept only under
`allow_trailing`; an empty delimiter match ends the list. -/
def matchDelimLoop (env : GEnv) : Nat → List Grammar → Grammar → Bool →
    List Seg → List Seg × List Seg
  | 0, _, _, _, toks => ([], toks)
  | fuel + 1, items, delim, allowTrailing, toks =>
    match matchG env fuel delim (gapSpan toks).2 with
    | none => ([], toks)
    | some (dm, rest2) =>
      if dm.isEmpty then ([], toks)
      else
        match matchLongest env fuel items (gapSpan rest2).2 with
        | some (m2, rest3) =>
          if m2.isEmpty then
            (if allowTrailing then ((gapSpan toks).1 ++ dm, rest2)
             else ([], toks))
          else
            let next := matchDelimLoop env fuel items delim allowTrailing rest3
            ((gapSpan toks).1 ++ dm ++ (gapSpan rest2).1 ++ m2 ++ next.1,
              next.2)
        | none =>
          if allowTrailing then ((gapSpan toks).1 ++ dm, rest2)
          else ([], toks)

end

/-! ## The ANSI grammar registrations the claims touch (ansi.rs) -/

/-- `FileSegment::match_grammar` (ansi.rs 2463-2474): a `Delimited` list of
`Ref("StatementSegment")`, `allow_trailing`, delimiter
`AnyNumberOf(Ref("DelimiterGrammar")).max_times(1)`. -/
def fileSegmentMatchGrammar : Grammar :=
  .delimited [.ref "StatementSegment"]
    (.anyNumberOf [.ref "DelimiterGrammar"] (some 1)) true

/-- The grammar C7 describes, written from the spec's words: a delimited
list of statements whose delimiter admits at most one `DelimiterGrammar`
occurrence between consecutive statements, with a trailing delimiter
allowed. -/
def fileSegmentMatchGrammarSpec : Grammar :=
  .delimited [.ref "StatementSegment"]
    (.anyNumberOf [.ref "DelimiterGrammar"] (some 1)) true

/-- `StatementSegment::match_grammar` (ansi.rs 2606-2649): `one_of` over
every statement production, in source order. -/
def statementSegmentGrammar : Grammar :=
  .oneOf
    [.ref "SelectableGrammar", .ref "MergeStatementSegment",
     .ref "InsertStatementSegment", .ref "TransactionStatementSegment",
     .ref "DropTableStatementSegment", .ref "DropViewStatementSegment",
     .ref "CreateUserStatementSegment", .ref "DropUserStatementSegment",
     .ref "TruncateStatementSegment", .ref "AccessStatementSegment",
     .ref "CreateTableStatementSegment", .ref "CreateRoleStatementSegment",
     .ref "DropRoleStatementSegment", .ref "AlterTableStatementSegment",
     .ref "CreateSchemaStatementSegment", .ref "SetSchemaStatementSegment",
     .ref "DropSchemaStatementSegment", .ref "DropTypeStatementSegment",
     .ref "CreateDatabaseStatementSegment", .ref "DropDatabaseStatementSegment",
     .ref "CreateIndexStatementSegment", .ref "DropIndexStatementSegment",
     .ref "CreateViewStatementSegment", .ref "DeleteStatementSegment",
     .ref "UpdateStatementSegment", .ref "CreateCastStatementSegment",
     .ref "DropCastStatementSegment", .ref "CreateFunctionStatementSegment",
     .ref "DropFunctionStatementSegment", .ref "CreateModelStatementSegment",
     .ref "DropModelStatementSegment", .ref "DescribeStatementSegment",
     .ref "UseStatementSegment", .ref "ExplainStatementSegment",
     .ref "CreateSequenceStatementSegment", .ref "AlterSequenceStatementSegment",
     .ref "DropSequenceStatementSegment", .ref "CreateTriggerStatementSegment",
     .ref "DropTriggerStatementSegment"]

/-- `TruncateStatementSegment::match_grammar` (ansi.rs 2791-2798):
`Sequence(keyword TRUNCATE, keyword TABLE optional, Ref
TableReferenceSegment)`. -/
def truncateStatementGrammar : Grammar :=
  .sequence [.keyword "TRUNCATE", .optionalG (.keyword "TABLE"),
    .ref "TableReferenceSegment"]

/-- The slice of the ANSI dialect registry the claims need, translated
entry by entry (ansi.rs): `DelimiterGrammar` (126), `SemicolonSegment`
(128-144, a `StringParser(";")` whose factory retags to
`statement_terminator`), `TrueSegment` / `FalseSegment` (588-595, via
`symbol_factory`, whose produced type string is "remove me" in the source),
`BooleanLiteralGrammar` (606-611, literally `one_of(TrueSegment,
TrueSegment)`), `SingleIdentifierGrammar` (597-605),
`NakedIdentifierSegment` (413-436), `QuotedIdentifierSegment` (a parser
over `double_quote` tokens), `TableReferenceSegment` (1252, a bare
`Ref("SingleIdentifierGrammar")` — it is not in the `add_segments!` node
list, so no `table_reference` node is created), and the node-wrapped
segment registrations made by `add_segments!` (1702-1726) for
`StatementSegment` and `TruncateStatementSegment`. References to
productions outside this slice resolve to nothing and simply fail to
match, which is sound for the inputs the claims exercise. -/
def ansiEnv : GEnv :=
  [("DelimiterGrammar", .ref "SemicolonSegment"),
   ("SemicolonSegment", .stringParser ";" "statement_terminator"),
   ("TrueSegment", .stringParser "true" "remove me"),
   ("FalseSegment", .stringParser "false" "remove me"),
   ("BooleanLiteralGrammar", .oneOf [.ref "TrueSegment", .ref "TrueSegment"]),
   ("SingleIdentifierGrammar",
     .oneOf [.ref "NakedIdentifierSegment", .ref "QuotedIdentifierSegment"]),
   ("NakedIdentifierSegment", .nakedIdentifier),
   ("QuotedIdentifierSegment", .typedParser "double_quote" "quoted_identifier"),
   ("TableReferenceSegment", .ref "SingleIdentifierGrammar"),
   ("StatementSegment", .node "statement" statementSegmentGrammar),
   ("TruncateStatementSegment",
     .node "truncate_statement" truncateStatementGrammar)]

/-- Match a statement over the lexed (non-end-of-file) tokens of an input:
the statement-level view of parsing used by C8. -/
def parseStatement (s : List Char) : Option (List Seg × List Seg) :=
  matchG ansiEnv 100 (.ref "StatementSegment") (lexLoop ansiLexerMatchers s)

mutual

/-- Does the tree contain a segment of the given type? -/
def Seg.hasType (t : String) : Seg → Bool
  | .leaf k _ _ => k == t
  | .node ty _ cs _ => ty == t || Seg.listHasType t cs

/-- Does any tree in the list contain a segment of the given type? -/
def Seg.listHasType (t : String) : List Seg → Bool
  | [] => false
  | s :: rest => Seg.hasType t s || Seg.listHasType t rest

end

mutual

/-- First segment of the given type, in pre-order. -/
def Seg.findType (t : String) : Seg → Option Seg
  | .leaf k r pm => if k == t then some (.leaf k r pm) else none
  | .node ty ct cs pm =>
    if ty == t then some (.node ty ct cs pm) else Seg.listFindType t cs

/-- First segment of the given type in a list of trees, in pre-order. -/
def Seg.listFindType (t : String) : List Seg → Option Seg
  | [] => none
  | s :: rest =>
    match Seg.findType t s with
    | some x => some x
    | none => Seg.listFindType t rest

end

/-! ## FileSegment::root_parse (ansi.rs 2393-2454) -/

/-- Model of `MatchResult` (spec §4.2): matched prefix and unmatched
remainder. -/
structure MatchResult where
  matched_segments : List Seg
  unmatched_segments : List Seg

/-- `MatchResult::has_match`: true when the matched sequence is
non-empty. -/
def MatchResult.has_match (mr : MatchResult) : Bool :=
  !mr.matched_segments.isEmpty

/-- The possible outcomes of `root_parse`: a file segment, one of the two
`unimplemented!()` panics (ansi.rs 2437 for no match, 2439 for a non-empty
unmatched remainder), or a propagated `SQLParseError`. -/
inductive RootParseResult where
  | ok (file : FileSegment)
  | panicUnimplemented
  | err

/-- `segments.iter().position(|s| s.is_code())` (ansi.rs 2400). -/
def firstCodeIdx : List Seg → Option Nat
  | [] => none
  | s :: rest =>
    if isCodeTok s then some 0 else (firstCodeIdx rest).map (· + 1)

/-- `segments.iter().rposition(|s| s.is_code())` (ansi.rs 2406). -/
def lastCodeIdx : List Seg → Option Nat
  | [] => none
  | s :: rest =>
    match lastCodeIdx rest with
    | some j => some (j + 1)
    | none => if isCodeTok s then some 0 else none

/-- `start_idx` of `root_parse`: first code index, `unwrap_or(0)`. -/
def rootStartIdx (segments : List Seg) : Nat :=
  (firstCodeIdx segments).getD 0

/-- `end_idx` of `root_parse`: one past the last code index,
`map_or(start_idx, |idx| idx + 1)`. -/
def rootEndIdx (segments : List Seg) : Nat :=
  (lastCodeIdx segments).elim (rootStartIdx segments) (fun idx => idx + 1)

/-- `FileSegment::root_parse` (ansi.rs 2393-2454): trim non-code from both
ends; with nothing in between, return a file over the original segments;
otherwise run the match grammar on the code span. `!has_match` and a
non-empty unmatched remainder both hit `unimplemented!()`; on a complete
match the file's children are the leading trim, the matched segments
chained with the (empty) unmatched ones, and the trailing trim. A fresh
uuid is taken in both constructing branches (`Uuid::new_v4()`, passed
explicitly); position-marker assignment (`pos_marker` from `pos_marker(..)`)
is left at `none`, as no claim depends on the root marker. -/
def root_parse (matchFn : List Seg → Except Unit MatchResult)
    (segments : List Seg) (freshUuid : Nat) : RootParseResult :=
  let start_idx := rootStartIdx segments
  let end_idx := rootEndIdx segments
  if start_idx = end_idx then
    .ok { segments := segments, pos_marker := none, uuid := freshUuid }
  else
    match matchFn ((segments.drop start_idx).take (end_idx - start_idx)) with
    | .error _ => .err
    | .ok mr =>
      if !mr.has_match then .panicUnimplemented
      else if !mr.unmatched_segments.isEmpty then .panicUnimplemented
      else
        .ok { segments :=
                segments.take start_idx ++
                  (mr.matched_segments ++ mr.unmatched_segments) ++
                  segments.drop end_idx,
              pos_marker := none, uuid := freshUuid }

/-- The match function `root_parse` uses: `self.match_grammar()` — the
`FileSegment` Delimited grammar — run through the engine (spec §4.2) over
the ANSI environment. A failed match is a `MatchResult` with an empty
matched sequence (so `has_match` is false). The fuel is far above the
recursion depth any token stream of that length can demand. -/
def fileMatchFn (toks : List Seg) : Except Unit MatchResult :=
  match matchG ansiEnv (toks.length * 100 + 100) fileSegmentMatchGrammar toks with
  | some (m, rest) => .ok { matched_segments := m, unmatched_segments := rest }
  | none => .ok { matched_segments := [], unmatched_segments := toks }

/-- End-to-end `parse` for the ANSI dialect: lex, then `root_parse` with
the `FileSegment` match grammar. -/
def rootParseAnsi (s : List Char) : RootParseResult :=
  root_parse fileMatchFn (lexAnsi s) 0

/-- The file segment `rootParseAnsi` produces for `"TRUNCATE test"`: the
statement node over the truncate statement, followed by the end-of-file
marker. -/
def c1file : FileSegment :=
  { segments :=
      [Seg.node "statement" ["statement"]
        [Seg.node "truncate_statement" []
          [Seg.leaf "keyword" "TRUNCATE".data none,
           Seg.leaf "whitespace" [' '] none,
           Seg.leaf "naked_identifier" "test".data none] none] none,
       Seg.leaf "end_of_file" [] none],
    pos_marker := none, uuid := 0 }

/-- A two-token stream for exercising `root_parse` directly. -/
def c2segs : List Seg :=
  [Seg.leaf "word" ['a'] none, Seg.leaf "word" ['b'] none]

/-- A match function that reports the first token matched and the second
unmatched — the partial-match shape the claim is about. -/
def c2fn : List Seg → Except Unit MatchResult := fun _ =>
  .ok { matched_segments := [Seg.leaf "word" ['a'] none],
        unmatched_segments := [Seg.leaf "word" ['b'] none] }

/-! ## C3: identity of rebuilt composites -/

/-- C3 counterexample: the claim says `Segment::new` gives the rebuilt node
an identifier distinct from the one of the node it was cloned from. At the
concrete node with uuid 37 and an empty replacement child list, the rebuilt
node keeps uuid 37, so the claim is false. -/
theorem C3_counterexample :
    ¬ ((NodeSeg.new { uuid := 37, segments := [], position_marker := none } []).uuid ≠ 37) := by
  decide

/-- C3 (amended): rebuilding a composite from an existing node with a
replaced child list (`Node::<T>::new`-the-Segment-impl, `from_segments!`,
and `FileSegment::new`) KEEPS the identifier of the node it was cloned
from, for every node and every replacement child list; identifiers are
fresh only at original creation (`Node::<T>::new()`). -/
theorem C3_new_keeps_uuid (n : NodeSeg) (f : FileSegment) (segs segs2 segs3 : List Seg)
    (u : Nat) :
    (NodeSeg.new n segs).uuid = n.uuid ∧
    (NodeSeg.from_segments n segs2).uuid = n.uuid ∧
    (FileSegment.new f segs3).uuid = f.uuid ∧
    (NodeSeg.mkFresh u).uuid = u := by
  exact ⟨rfl, rfl, rfl, rfl⟩

/-! ## C4: class-type sets versus kind tags -/

/-- C4 counterexample: the claim says a `concat` node's class-type set
contains both "concat" and "binary_operator"; in the code it is exactly
{"binary_operator"} and does not contain "concat". -/
theorem C4_counterexample :
    ¬ ("concat" ∈ ConcatSegment.class_types ∧
       "binary_operator" ∈ ConcatSegment.class_types) := by
  decide

/-- C4 (amended): the class-type set is NOT in general a superset of the
kind tag. The default `class_types` is the empty set; a concat node's
class-type set is exactly {"binary_operator"} (it contains
"binary_operator" but not its own type "concat");
`UnorderedSelectStatementSegment`'s is exactly {"select_clause"}, not
containing its own type; `SelectClauseSegment` has the default empty set;
only some segments (e.g. `StatementSegment`, `FunctionNameSegment`) list
their own type string. -/
theorem C4_class_types_not_superset_of_kind :
    NodeTrait.defaultClassTypes = [] ∧
    ConcatSegment.class_types = ["binary_operator"] ∧
    ConcatSegment.TYPE ∉ ConcatSegment.class_types ∧
    UnorderedSelectStatementSegment.class_types = ["select_clause"] ∧
    UnorderedSelectStatementSegment.TYPE ∉ UnorderedSelectStatementSegment.class_types ∧
    SelectClauseSegment.class_types = [] ∧
    SelectClauseSegment.TYPE ∉ SelectClauseSegment.class_types ∧
    StatementSegment.TYPE ∈ StatementSegment.class_types ∧
    FunctionNameSegment.TYPE ∈ FunctionNameSegment.class_types := by
  decide

/-! ## Lexer lemmas: raw preservation -/

theorem Seg.rawList_append (a b : List Seg) :
    Seg.rawList (a ++ b) = Seg.rawList a ++ Seg.rawList b := by
  induction a with
  | nil => simp [Seg.rawList]
  | cons s rest ih => simp [Seg.rawList, ih]

theorem takeWhileCount_le (p : Char → Bool) (s : List Char) :
    takeWhileCount p s ≤ s.length := by
  induction s with
  | nil => simp [takeWhileCount]
  | cons c rest ih =>
    simp only [takeWhileCount, List.length_cons]
    split <;> omega

theorem takeWhileCount_take_all (p : Char → Bool) (s : List Char) :
    (List.take (takeWhileCount p s) s).all p = true := by
  induction s with
  | nil => simp
  | cons c rest ih =>
    simp only [takeWhileCount]
    split
    · simp [List.take_succ_cons, *]
    · simp

theorem runMatch_all (p : Char → Bool) (s : List Char) (k : Nat)
    (h : runMatch p s = some k) : (List.take (k + 1) s).all p = true := by
  unfold runMatch at h
  cases hn : takeWhileCount p s with
  | zero => rw [hn] at h; exact absurd h (by simp)
  | succ n =>
    rw [hn] at h
    simp only [Option.some.injEq] at h
    subst h
    have := takeWhileCount_take_all p s
    rwa [hn] at this

theorem trimGoF_raw (m : SubMatcher) (pk : String) :
    ∀ (fuel : Nat) (t : List Char), t.length ≤ fuel →
      Seg.rawList (trimGoF m pk fuel t) = t := by
  intro fuel
  induction fuel with
  | zero =>
    intro t ht
    cases t with
    | nil => simp [trimGoF, Seg.rawList]
    | cons c rest => simp at ht
  | succ fuel ih =>
    intro t ht
    cases t with
    | nil => simp [trimGoF, Seg.rawList]
    | cons c rest =>
      cases hfn : m.fn (c :: rest) with
      | some k =>
        simp only [trimGoF, hfn, Seg.rawList, Seg.raw]
        rw [ih _ (by simp only [List.length_drop, List.length_cons] at ht ⊢; omega)]
        exact List.take_append_drop _ _
      | none => simp [trimGoF, hfn, Seg.rawList, Seg.raw]

theorem trimGo_raw (m : SubMatcher) (pk : String) (t : List Char) :
    Seg.rawList (trimGo m pk t) = t :=
  trimGoF_raw m pk t.length t (Nat.le_refl _)

theorem trimPieces_raw (tr : Option SubMatcher) (pk : String) (t : List Char) :
    Seg.rawList (trimPieces tr pk t) = t := by
  cases t with
  | nil => simp [trimPieces, Seg.rawList]
  | cons c rest =>
    cases tr with
    | none => simp [trimPieces, Seg.rawList, Seg.raw]
    | some m => exact trimGo_raw m pk (c :: rest)

theorem subdivideF_raw (sub : SubMatcher) (tr : Option SubMatcher) (pk : String) :
    ∀ (fuel : Nat) (t : List Char), t.length ≤ fuel →
      Seg.rawList (subdivideF sub tr pk fuel t) = t := by
  intro fuel
  induction fuel with
  | zero =>
    intro t ht
    cases t with
    | nil => simp [subdivideF, Seg.rawList]
    | cons c rest => simp at ht
  | succ fuel ih =>
    intro t ht
    cases t with
    | nil => simp [subdivideF, Seg.rawList]
    | cons c rest =>
      cases hfd : findDiv sub (c :: rest) with
      | none =>
        simp only [subdivideF, hfd]
        exact trimPieces_raw _ _ _
      | some jk =>
        obtain ⟨j, k⟩ := jk
        simp only [subdivideF, hfd]
        rw [Seg.rawList_append, trimPieces_raw]
        simp only [Seg.rawList, Seg.raw]
        rw [ih _ (by simp only [List.length_drop, List.length_cons] at ht ⊢; omega)]
        rw [List.drop_take_append_drop, List.take_append_drop]

theorem subdivide_raw (sub : SubMatcher) (tr : Option SubMatcher) (pk : String)
    (t : List Char) : Seg.rawList (subdivide sub tr pk t) = t :=
  subdivideF_raw sub tr pk t.length t (Nat.le_refl _)

theorem processMatch_raw (m : LexMatcher) (text : List Char) :
    Seg.rawList (processMatch m text) = text := by
  unfold processMatch
  cases hs : m.subdivider with
  | none => simp [Seg.rawList, Seg.raw]
  | some sub => exact subdivide_raw sub m.trimmer m.kind text

theorem lexLoopF_raw (ms : List LexMatcher) :
    ∀ (fuel : Nat) (s : List Char), s.length ≤ fuel →
      Seg.rawList (lexLoopF ms fuel s) = s := by
  intro fuel
  induction fuel with
  | zero =>
    intro s hs
    cases s with
    | nil => simp [lexLoopF, Seg.rawList]
    | cons c rest => simp at hs
  | succ fuel ih =>
    intro s hs
    cases s with
    | nil => simp [lexLoopF, Seg.rawList]
    | cons c rest =>
      cases hfm : firstMatch ms (c :: rest) with
      | some mk =>
        obtain ⟨m, k⟩ := mk
        simp only [lexLoopF, hfm]
        rw [Seg.rawList_append, processMatch_raw,
          ih _ (by simp only [List.length_drop, List.length_cons] at hs ⊢; omega),
          List.take_append_drop]
      | none =>
        simp only [lexLoopF, hfm, Seg.rawList, Seg.raw]
        rw [ih _ (by simp only [List.length_cons] at hs; omega)]
        rfl

theorem lexLoop_raw (ms : List LexMatcher) (s : List Char) :
    Seg.rawList (lexLoop ms s) = s :=
  lexLoopF_raw ms s.length s (Nat.le_refl _)

theorem lexAnsi_raw (s : List Char) : Seg.rawList (lexAnsi s) = s := by
  unfold lexAnsi
  rw [Seg.rawList_append, lexLoop_raw]
  simp [Seg.rawList, Seg.raw]

/-! ## Lexer lemmas: whitespace segments exclude line breaks -/

theorem wsClean_leaf_ne (k : String) (r : List Char) (pm : Option PositionMarker)
    (h : (k == "whitespace") = false) : wsClean (Seg.leaf k r pm) = true := by
  simp [wsClean, Seg.typeOf, h]

theorem wsClean_ws_leaf (r : List Char) (pm : Option PositionMarker)
    (h : r.all wsChar = true) : wsClean (Seg.leaf "whitespace" r pm) = true := by
  simp [wsClean, Seg.typeOf, Seg.raw, h]

theorem trimGoF_wsClean (pk : String) (hpk : (pk == "whitespace") = false) :
    ∀ (fuel : Nat) (t : List Char),
      (trimGoF ⟨"whitespace", whitespaceFn⟩ pk fuel t).all wsClean = true := by
  intro fuel
  induction fuel with
  | zero => intro t; cases t <;> simp [trimGoF]
  | succ fuel ih =>
    intro t
    cases t with
    | nil => simp [trimGoF]
    | cons c rest =>
      cases hfn : whitespaceFn (c :: rest) with
      | some k =>
        simp only [trimGoF, hfn]
        rw [List.all_cons, ih _, Bool.and_true]
        exact wsClean_ws_leaf _ _ (runMatch_all wsChar _ k hfn)
      | none =>
        simp only [trimGoF, hfn]
        rw [List.all_cons, List.all_nil, Bool.and_true]
        exact wsClean_leaf_ne pk (c :: rest) none hpk

theorem trimGo_wsClean (pk : String) (hpk : (pk == "whitespace") = false)
    (t : List Char) :
    (trimGo ⟨"whitespace", whitespaceFn⟩ pk t).all wsClean = true :=
  trimGoF_wsClean pk hpk t.length t

theorem trimPieces_wsClean (pk : String) (hpk : (pk == "whitespace") = false)
    (t : List Char) :
    (trimPieces (some ⟨"whitespace", whitespaceFn⟩) pk t).all wsClean = true := by
  cases t with
  | nil => simp [trimPieces]
  | cons c rest => exact trimGo_wsClean pk hpk (c :: rest)

theorem subdivideF_wsClean :
    ∀ (fuel : Nat) (t : List Char),
      (subdivideF ⟨"newline", newlineFn⟩ (some ⟨"whitespace", whitespaceFn⟩)
        "block_comment" fuel t).all wsClean = true := by
  intro fuel
  induction fuel with
  | zero => intro t; cases t <;> simp [subdivideF]
  | succ fuel ih =>
    intro t
    cases t with
    | nil => simp [subdivideF]
    | cons c rest =>
      cases hfd : findDiv ⟨"newline", newlineFn⟩ (c :: rest) with
      | none =>
        simp only [subdivideF, hfd]
        exact trimPieces_wsClean "block_comment" (by decide) (c :: rest)
      | some jk =>
        obtain ⟨j, k⟩ := jk
        simp only [subdivideF, hfd]
        rw [List.all_append, trimPieces_wsClean "block_comment" (by decide),
          List.all_cons, wsClean_leaf_ne "newline" _ _ (by decide), ih _]
        rfl

theorem subdivide_wsClean (t : List Char) :
    (subdivide ⟨"newline", newlineFn⟩ (some ⟨"whitespace", whitespaceFn⟩)
      "block_comment" t).all wsClean = true :=
  subdivideF_wsClean t.length t

theorem processMatch_wsClean (m : LexMatcher) (hm : m ∈ ansiLexerMatchers)
    (s : List Char) (k : Nat) (hfn : m.fn s = some k) :
    (processMatch m (List.take (k + 1) s)).all wsClean = true := by
  fin_cases hm <;>
    simp only [processMatch, List.all_cons, List.all_nil, Bool.and_true] <;>
    first
      | exact subdivide_wsClean _
      | exact wsClean_leaf_ne _ _ _ (by decide)
      | exact wsClean_ws_leaf _ _ (runMatch_all wsChar s k hfn)

theorem firstMatch_mem (ms : List LexMatcher) (s : List Char) (m : LexMatcher)
    (k : Nat) (h : firstMatch ms s = some (m, k)) :
    m ∈ ms ∧ m.fn s = some k := by
  induction ms with
  | nil => simp [firstMatch] at h
  | cons m0 rest ih =>
    unfold firstMatch at h
    cases hf : m0.fn s with
    | some k0 =>
      rw [hf] at h
      simp only [Option.some.injEq, Prod.mk.injEq] at h
      obtain ⟨h1, h2⟩ := h
      subst h1
      subst h2
      exact ⟨List.mem_cons_self _ _, hf⟩
    | none =>
      rw [hf] at h
      obtain ⟨hmem, hfn⟩ := ih h
      exact ⟨List.mem_cons_of_mem _ hmem, hfn⟩

theorem lexLoopF_wsClean :
    ∀ (fuel : Nat) (s : List Char),
      (lexLoopF ansiLexerMatchers fuel s).all wsClean = true := by
  intro fuel
  induction fuel with
  | zero => intro s; cases s <;> simp [lexLoopF]
  | succ fuel ih =>
    intro s
    cases s with
    | nil => simp [lexLoopF]
    | cons c rest =>
      cases hfm : firstMatch ansiLexerMatchers (c :: rest) with
      | some mk =>
        obtain ⟨m, k⟩ := mk
        obtain ⟨hmem, hfn⟩ := firstMatch_mem _ _ _ _ hfm
        simp only [lexLoopF, hfm]
        rw [List.all_append, ih _, processMatch_wsClean m hmem _ _ hfn]
        rfl
      | none =>
        simp only [lexLoopF, hfm]
        rw [List.all_cons, ih _, wsClean_leaf_ne "unlexable" [c] none (by decide)]
        rfl

theorem lexLoop_wsClean (s : List Char) :
    (lexLoop ansiLexerMatchers s).all wsClean = true :=
  lexLoopF_wsClean s.length s

theorem wsChar_no_crlf (c : Char) (h : wsChar c = true) :
    (!(c = '\n') && !(c = '\r')) = true := by
  unfold wsChar at h
  simp only [Bool.and_eq_true, decide_eq_true_eq, Bool.not_eq_eq_eq_not,
    Bool.not_true, decide_eq_false_iff_not] at h ⊢
  exact ⟨h.2, h.1.2⟩

theorem noCRLF_of_wsClean (seg : Seg) (h : wsClean seg = true) :
    noCRLF seg = true := by
  unfold wsClean at h
  unfold noCRLF
  cases hb : (seg.typeOf == "whitespace") with
  | false => simp [hb]
  | true =>
    rw [hb] at h
    simp only [Bool.not_true, Bool.false_or] at h ⊢
    exact List.all_eq_true.mpr fun c hc =>
      wsChar_no_crlf c (List.all_eq_true.mp h c hc)

theorem lexAnsi_noCRLF (s : List Char) : (lexAnsi s).all noCRLF = true := by
  unfold lexAnsi
  rw [List.all_append]
  have h1 : (lexLoop ansiLexerMatchers s).all noCRLF = true :=
    List.all_eq_true.mpr fun seg hseg =>
      noCRLF_of_wsClean seg (List.all_eq_true.mp (lexLoop_wsClean s) seg hseg)
  rw [h1]
  rfl

/-! ## C5: the boolean-literal grammar -/

/-- C5: `BooleanLiteralGrammar` is registered as
`one_of(Ref("TrueSegment"), Ref("TrueSegment"))` (ansi.rs 606-611) — the
second alternative repeats `TrueSegment` instead of naming `FalseSegment`.
Consequently a token stream beginning with the literal `true` matches, but
one beginning with `false` does not, although `FalseSegment` itself (which
the grammar was evidently meant to reference) would match it. -/
theorem C5_boolean_literal_grammar :
    lookupG ansiEnv "BooleanLiteralGrammar" =
      some (.oneOf [.ref "TrueSegment", .ref "TrueSegment"]) ∧
    (matchG ansiEnv 10 (.ref "BooleanLiteralGrammar")
      [Seg.leaf "word" "true".data none]).isSome = true ∧
    matchG ansiEnv 10 (.ref "BooleanLiteralGrammar")
      [Seg.leaf "word" "false".data none] = none ∧
    (matchG ansiEnv 10 (.ref "FalseSegment")
      [Seg.leaf "word" "false".data none]).isSome = true :=
  ⟨rfl, rfl, rfl, rfl⟩

/-! ## C7: the FileSegment match grammar -/

/-- C7: `FileSegment`'s match grammar is a `Delimited` list of
`Ref("StatementSegment")` that allows a trailing delimiter, whose delimiter
admits at most one `DelimiterGrammar` occurrence (resolving to
`SemicolonSegment`) between consecutive statements: the grammar translated
from ansi.rs 2463-2474 equals the grammar written from the spec's words;
`DelimiterGrammar` resolves to the semicolon parser; one semicolon between
two statements matches the whole input, a trailing semicolon matches, and a
second consecutive semicolon is NOT consumed between statements (the
remainder from the second semicolon on is left unmatched). -/
theorem C7_file_segment_match_grammar :
    fileSegmentMatchGrammar = fileSegmentMatchGrammarSpec ∧
    lookupG ansiEnv "DelimiterGrammar" = some (.ref "SemicolonSegment") ∧
    lookupG ansiEnv "SemicolonSegment" =
      some (.stringParser ";" "statement_terminator") ∧
    (matchG ansiEnv 200 fileSegmentMatchGrammar
        (lexLoop ansiLexerMatchers "TRUNCATE test; TRUNCATE test".data)).map
        (fun p => (Seg.rawList p.1, Seg.rawList p.2)) =
      some ("TRUNCATE test; TRUNCATE test".data, []) ∧
    (matchG ansiEnv 200 fileSegmentMatchGrammar
        (lexLoop ansiLexerMatchers "TRUNCATE test;".data)).map
        (fun p => (Seg.rawList p.1, Seg.rawList p.2)) =
      some ("TRUNCATE test;".data, []) ∧
    (matchG ansiEnv 200 fileSegmentMatchGrammar
        (lexLoop ansiLexerMatchers "TRUNCATE test;; TRUNCATE test".data)).map
        (fun p => (Seg.rawList p.1, Seg.rawList p.2)) =
      some ("TRUNCATE test;".data, "; TRUNCATE test".data) :=
  ⟨rfl, rfl, rfl, rfl, rfl, rfl⟩

/-! ## C8: TRUNCATE statements -/

/-- C8 counterexample: the claim says the parse of `"TRUNCATE TABLE test"`
contains a `table_reference` segment with raw `test`. The statement parses
(as the amended theorem shows), but the result contains NO segment of type
`table_reference`: `TableReferenceSegment` is registered as a bare
`Ref("SingleIdentifierGrammar")` (ansi.rs 1252) and is absent from the
`add_segments!` node list, so no `table_reference` node is ever created. -/
theorem C8_counterexample :
    (parseStatement "TRUNCATE TABLE test".data).map
      (fun p => Seg.listHasType "table_reference" p.1) = some false :=
  rfl

/-- C8 (amended): parsing `"TRUNCATE TABLE test"` and `"TRUNCATE test"`
under the ANSI dialect both succeed with no remainder, each producing a
`truncate_statement` segment whose table-reference position holds a single
identifier with raw `"test"` (the `TABLE` keyword is optional); no segment
of type `table_reference` appears, because that production is a bare
reference to `SingleIdentifierGrammar`. -/
theorem C8_truncate_statement_parses :
    (parseStatement "TRUNCATE TABLE test".data).map
      (fun p => (p.2, Seg.listHasType "truncate_statement" p.1,
        Seg.listHasType "table_reference" p.1,
        (Seg.listFindType "naked_identifier" p.1).map Seg.raw)) =
      some ([], true, false, some "test".data) ∧
    (parseStatement "TRUNCATE test".data).map
      (fun p => (p.2, Seg.listHasType "truncate_statement" p.1,
        Seg.listHasType "table_reference" p.1,
        (Seg.listFindType "naked_identifier" p.1).map Seg.raw)) =
      some ([], true, false, some "test".data) :=
  ⟨rfl, rfl⟩

/-! ## C6 and C10: rule AL08 -/

/-- C6: linting `"select foo, foo"` (its CST per spec §8 scenario 3) with
rule AL08 produces exactly one violation, anchored at the second `foo`
(line 1, column 13), with description exactly
`"Reuse of column alias foo from line 1."`. -/
theorem C6_al08_single_violation :
    lintAL08 c6tree =
      [{ anchor := some fooIdent2,
         description := some "Reuse of column alias foo from line 1." }] ∧
    ((lintAL08 c6tree).head?.bind LintResult.anchor).bind Seg.pmOf =
      some ⟨12, 15, 1, 13⟩ :=
  ⟨rfl, rfl⟩

/-- C10: AL08 considers only select-clause elements with a
`column_reference` child and no `alias_expression` child — an aliased
element is skipped entirely (no violation recorded, no key added), and so
is an element without a column reference; keys are compared uppercased
with double-quote, single-quote and back-quote characters removed, so
`foo`, `FOO` and `"foo"` collide (two violations for the last two) while an
aliased `foo` adds nothing. -/
theorem C10_al08_alias_handling :
    (∀ (elem : Seg) (rest : List Seg) (used : List (List Char × Seg)),
      (elem.child ["alias_expression"]).isSome = true →
      evalGo (elem :: rest) used = evalGo rest used) ∧
    (∀ (elem : Seg) (rest : List Seg) (used : List (List Char × Seg)),
      elem.child ["column_reference"] = none →
      evalGo (elem :: rest) used = evalGo rest used) ∧
    (lintAL08 (.node "file" ["file"] [c10clause] none)).map
        (fun r => (r.anchor.map Seg.raw, r.description)) =
      [(some ['F', 'O', 'O'], some "Reuse of column alias FOO from line 1."),
       (some [dquoteC, 'f', 'o', 'o', dquoteC],
        some (String.mk ("Reuse of column alias ".data ++
          [dquoteC, 'f', 'o', 'o', dquoteC] ++ " from line 1.".data)))] := by
  refine ⟨?_, ?_, ?_⟩
  · intro elem rest used h
    simp [evalGo, h]
  · intro elem rest used h
    cases halias : (elem.child ["alias_expression"]).isSome <;>
      simp [evalGo, halias, h]
  · rfl

/-- Witness for C10: the hypotheses of the two universal parts hold at the
concrete aliased element and at the concrete element without a column
reference, and the conclusion follows by the theorem itself. -/
theorem C10_al08_alias_handling_witness :
    ((c10elemAliased.child ["alias_expression"]).isSome = true ∧
      evalGo [c10elemAliased] [] = evalGo [] []) ∧
    (c10elemNoColRef.child ["column_reference"] = none ∧
      evalGo [c10elemNoColRef] [] = evalGo [] []) :=
  ⟨⟨rfl, C10_al08_alias_handling.1 c10elemAliased [] [] rfl⟩,
   ⟨rfl, C10_al08_alias_handling.2.1 c10elemNoColRef [] [] rfl⟩⟩

/-! ## Engine lemmas: the matcher splits its input without loss -/

theorem gap_raw (toks : List Seg) :
    Seg.rawList (gapSpan toks).1 ++ Seg.rawList (gapSpan toks).2 =
      Seg.rawList toks := by
  rw [← Seg.rawList_append]
  simp [gapSpan, List.takeWhile_append_dropWhile]

theorem engineRaw : ∀ fuel : Nat,
    (∀ env g toks m rest, matchG env fuel g toks = some (m, rest) →
      Seg.rawList m ++ Seg.rawList rest = Seg.rawList toks) ∧
    (∀ env items toks m rest, matchItems env fuel items toks = some (m, rest) →
      Seg.rawList m ++ Seg.rawList rest = Seg.rawList toks) ∧
    (∀ env items toks m rest, matchLongest env fuel items toks = some (m, rest) →
      Seg.rawList m ++ Seg.rawList rest = Seg.rawList toks) ∧
    (∀ env items maxT toks,
      Seg.rawList (matchRep env fuel items maxT toks).1 ++
        Seg.rawList (matchRep env fuel items maxT toks).2 = Seg.rawList toks) ∧
    (∀ env items delim b toks m rest,
      matchDelim env fuel items delim b toks = some (m, rest) →
      Seg.rawList m ++ Seg.rawList rest = Seg.rawList toks) ∧
    (∀ env items delim b toks,
      Seg.rawList (matchDelimLoop env fuel items delim b toks).1 ++
        Seg.rawList (matchDelimLoop env fuel items delim b toks).2 =
        Seg.rawList toks) := by
  intro fuel
  induction fuel with
  | zero =>
    refine ⟨?_, ?_, ?_, ?_, ?_, ?_⟩
    · intro env g toks m rest h; simp [matchG] at h
    · intro env items toks m rest h; simp [matchItems] at h
    · intro env items toks m rest h; simp [matchLongest] at h
    · intro env items maxT toks; simp [matchRep, Seg.rawList]
    · intro env items delim b toks m rest h; simp [matchDelim] at h
    · intro env items delim b toks; simp [matchDelimLoop, Seg.rawList]
  | succ fuel ih =>
    obtain ⟨ihG, ihI, ihL, ihR, ihD, ihDL⟩ := ih
    refine ⟨?_, ?_, ?_, ?_, ?_, ?_⟩
    · intro env g toks m rest h
      cases g with
      | ref name =>
        simp only [matchG] at h
        split at h
        next g2 hl => exact ihG env g2 toks m rest h
        next => exact Option.noConfusion h
      | keyword kw =>
        simp only [matchG] at h
        split at h
        next k r pm rest0 =>
          split at h
          · simp only [Option.some.injEq, Prod.mk.injEq] at h
            obtain ⟨h1, h2⟩ := h
            subst h1
            subst h2
            simp [Seg.rawList, Seg.raw]
          · exact Option.noConfusion h
        next => exact Option.noConfusion h
      | stringParser template kind =>
        simp only [matchG] at h
        split at h
        next k r pm rest0 =>
          split at h
          · simp only [Option.some.injEq, Prod.mk.injEq] at h
            obtain ⟨h1, h2⟩ := h
            subst h1
            subst h2
            simp [Seg.rawList, Seg.raw]
          · exact Option.noConfusion h
        next => exact Option.noConfusion h
      | typedParser mk outk =>
        simp only [matchG] at h
        split at h
        next k r pm rest0 =>
          split at h
          · simp only [Option.some.injEq, Prod.mk.injEq] at h
            obtain ⟨h1, h2⟩ := h
            subst h1
            subst h2
            simp [Seg.rawList, Seg.raw]
          · exact Option.noConfusion h
        next => exact Option.noConfusion h
      | nakedIdentifier =>
        simp only [matchG] at h
        split at h
        next k r pm rest0 =>
          split at h
          · simp only [Option.some.injEq, Prod.mk.injEq] at h
            obtain ⟨h1, h2⟩ := h
            subst h1
            subst h2
            simp [Seg.rawList, Seg.raw]
          · exact Option.noConfusion h
        next => exact Option.noConfusion h
      | optionalG g2 =>
        simp only [matchG] at h
        split at h
        next res hres =>
          obtain ⟨m0, r0⟩ := res
          simp only [Option.some.injEq, Prod.mk.injEq] at h
          obtain ⟨h1, h2⟩ := h
          subst h1
          subst h2
          exact ihG env g2 toks m0 r0 hres
        next hres =>
          simp only [Option.some.injEq, Prod.mk.injEq] at h
          obtain ⟨h1, h2⟩ := h
          subst h1
          subst h2
          simp [Seg.rawList]
      | node typ inner =>
        simp only [matchG] at h
        split at h
        next m0 r0 hinner =>
          simp only [Option.some.injEq, Prod.mk.injEq] at h
          obtain ⟨h1, h2⟩ := h
          subst h1
          subst h2
          simp only [Seg.rawList, Seg.raw, List.append_nil]
          exact ihG env inner toks m0 r0 hinner
        next => exact Option.noConfusion h
      | sequence items =>
        simp only [matchG] at h
        exact ihI env items toks m rest h
      | oneOf items =>
        simp only [matchG] at h
        exact ihL env items toks m rest h
      | anyNumberOf items maxT =>
        simp only [matchG] at h
        have h2 : matchRep env fuel items maxT toks = (m, rest) := by
          simpa using h
        have h3 := ihR env items maxT toks
        rw [h2] at h3
        exact h3
      | delimited items delim b =>
        simp only [matchG] at h
        exact ihD env items delim b toks m rest h
      | nothing =>
        simp only [matchG] at h
        exact Option.noConfusion h
    · intro env items toks m rest h
      cases items with
      | nil =>
        simp only [matchItems, Option.some.injEq, Prod.mk.injEq] at h
        obtain ⟨h1, h2⟩ := h
        subst h1
        subst h2
        simp [Seg.rawList]
      | cons item rest_items =>
        simp only [matchItems] at h
        split at h
        next m0 r0 hitem =>
          split at h
          next ms restf hrest =>
            simp only [Option.some.injEq, Prod.mk.injEq] at h
            obtain ⟨h1, h2⟩ := h
            subst h1
            subst h2
            have e1 := ihG env item (gapSpan toks).2 m0 r0 hitem
            have e2 := ihI env rest_items r0 ms restf hrest
            simp only [Seg.rawList_append, List.append_assoc]
            rw [e2, e1, gap_raw]
          next => exact Option.noConfusion h
        next => exact Option.noConfusion h
    · intro env items toks m rest h
      cases items with
      | nil =>
        simp only [matchLongest] at h
        exact Option.noConfusion h
      | cons g rest_items =>
        simp only [matchLongest] at h
        split at h
        next m1 r1 m2 r2 h1 h2 =>
          split at h <;>
          · simp only [Option.some.injEq, Prod.mk.injEq] at h
            obtain ⟨ha, hb⟩ := h
            subst ha
            subst hb
            first
              | exact ihG env g toks _ _ h1
              | exact ihL env rest_items toks _ _ h2
        next x h1 h2 =>
          obtain ⟨m1, r1⟩ := x
          simp only [Option.some.injEq, Prod.mk.injEq] at h
          obtain ⟨ha, hb⟩ := h
          subst ha
          subst hb
          exact ihG env g toks _ _ h1
        next y h1 h2 =>
          obtain ⟨m2, r2⟩ := y
          simp only [Option.some.injEq, Prod.mk.injEq] at h
          obtain ⟨ha, hb⟩ := h
          subst ha
          subst hb
          exact ihL env rest_items toks _ _ h2
        next h1 h2 => exact Option.noConfusion h
    · intro env items maxT toks
      simp only [matchRep]
      split
      · simp [Seg.rawList]
      · split
        next hl => simp [Seg.rawList]
        next m0 r0 hl =>
          split
          next hme => simp [Seg.rawList]
          next hme =>
            have e1 := ihL env items (gapSpan toks).2 m0 r0 hl
            have e2 := ihR env items (maxT.map (· - 1)) r0
            simp only [Seg.rawList_append, List.append_assoc]
            rw [e2, e1, gap_raw]
    · intro env items delim b toks m rest h
      simp only [matchDelim] at h
      split at h
      next => exact Option.noConfusion h
      next m1 r1 hl =>
        simp only [Option.some.injEq, Prod.mk.injEq] at h
        obtain ⟨h1, h2⟩ := h
        subst h1
        subst h2
        have e1 := ihL env items toks m1 r1 hl
        have e2 := ihDL env items delim b r1
        simp only [Seg.rawList_append, List.append_assoc]
        rw [e2, e1]
    · intro env items delim b toks
      simp only [matchDelimLoop]
      split
      next hd => simp [Seg.rawList]
      next dm r2 hd =>
        split
        next hde => simp [Seg.rawList]
        next hde =>
          have e1 := ihG env delim (gapSpan toks).2 dm r2 hd
          split
          next m2 r3 hl =>
            split
            next hm2e =>
              split
              next hb =>
                simp only [Seg.rawList_append, List.append_assoc]
                rw [e1, gap_raw]
              next hb => simp [Seg.rawList]
            next hm2e =>
              have e2 := ihL env items (gapSpan r2).2 m2 r3 hl
              have e3 := ihDL env items delim b r3
              simp only [Seg.rawList_append, List.append_assoc]
              rw [e3, e2, gap_raw, e1, gap_raw]
          next hl =>
            split
            next hb =>
              simp only [Seg.rawList_append, List.append_assoc]
              rw [e1, gap_raw]
            next hb => simp [Seg.rawList]

/-! ## root_parse lemmas -/

theorem firstCodeIdx_le_lastCodeIdx :
    ∀ (l : List Seg) (j : Nat), lastCodeIdx l = some j →
      ∃ i, firstCodeIdx l = some i ∧ i ≤ j := by
  intro l
  induction l with
  | nil => intro j h; simp [lastCodeIdx] at h
  | cons s rest ih =>
    intro j h
    simp only [lastCodeIdx] at h
    cases hr : lastCodeIdx rest with
    | some j2 =>
      rw [hr] at h
      simp only [Option.some.injEq] at h
      subst h
      obtain ⟨i2, hi2, hle⟩ := ih j2 hr
      cases hc : isCodeTok s with
      | true => exact ⟨0, by simp [firstCodeIdx, hc], Nat.zero_le _⟩
      | false =>
        refine ⟨i2 + 1, ?_, Nat.succ_le_succ hle⟩
        simp [firstCodeIdx, hc, hi2]
    | none =>
      rw [hr] at h
      cases hc : isCodeTok s with
      | true =>
        rw [hc] at h
        simp only [if_true, Option.some.injEq] at h
        subst h
        exact ⟨0, by simp [firstCodeIdx, hc], Nat.le_refl 0⟩
      | false =>
        rw [hc] at h
        simp at h

theorem rootStartIdx_le_rootEndIdx (segments : List Seg) :
    rootStartIdx segments ≤ rootEndIdx segments := by
  unfold rootEndIdx
  cases hlc : lastCodeIdx segments with
  | none => simp
  | some j =>
    obtain ⟨i, hfc, hij⟩ := firstCodeIdx_le_lastCodeIdx segments j hlc
    unfold rootStartIdx
    rw [hfc]
    simp only [Option.getD_some, Option.elim]
    omega

theorem rootParse_raw (matchFn : List Seg → Except Unit MatchResult)
    (hMF : ∀ toks mr, matchFn toks = .ok mr →
      Seg.rawList mr.matched_segments ++ Seg.rawList mr.unmatched_segments =
        Seg.rawList toks)
    (segments : List Seg) (uuid : Nat) (file : FileSegment)
    (h : root_parse matchFn segments uuid = .ok file) :
    Seg.rawList file.segments = Seg.rawList segments := by
  unfold root_parse at h
  by_cases heq : rootStartIdx segments = rootEndIdx segments
  · rw [if_pos heq] at h
    simp only [RootParseResult.ok.injEq] at h
    subst h
    rfl
  · rw [if_neg heq] at h
    have hse := rootStartIdx_le_rootEndIdx segments
    split at h
    next e hm => exact RootParseResult.noConfusion h
    next mr hm =>
      split at h
      · exact RootParseResult.noConfusion h
      · split at h
        · exact RootParseResult.noConfusion h
        · injection h with h
          subst h
          have hmr := hMF _ _ hm
          show Seg.rawList (segments.take (rootStartIdx segments) ++
            (mr.matched_segments ++ mr.unmatched_segments) ++
            segments.drop (rootEndIdx segments)) = Seg.rawList segments
          rw [Seg.rawList_append, Seg.rawList_append, Seg.rawList_append, hmr]
          rw [← Seg.rawList_append, ← Seg.rawList_append]
          congr 1
          rw [List.append_assoc]
          have hdt := List.drop_take_append_drop segments (rootStartIdx segments)
            (rootEndIdx segments - rootStartIdx segments)
          rw [Nat.add_sub_cancel' hse] at hdt
          rw [hdt, List.take_append_drop]

/-! ## C1: the parse round-trips every byte -/

/-- C1: for every input string, when root parsing returns a tree, the
concatenated raw of the returned `FileSegment`'s segments reproduces the
input exactly — every byte, whitespace and comments included. The lexer
loses no bytes (`lexAnsi_raw`), the combinator engine splits its input
without loss (`engineRaw`), and `root_parse` reassembles the leading trim,
the match and the trailing trim (`rootParse_raw`). -/
theorem C1_round_trip (s : List Char) (file : FileSegment)
    (h : rootParseAnsi s = .ok file) : Seg.rawList file.segments = s := by
  have hMF : ∀ toks mr, fileMatchFn toks = .ok mr →
      Seg.rawList mr.matched_segments ++ Seg.rawList mr.unmatched_segments =
        Seg.rawList toks := by
    intro toks mr hm
    unfold fileMatchFn at hm
    split at hm
    next m r hg =>
      injection hm with hm
      subst hm
      exact (engineRaw _).1 _ _ _ _ _ hg
    next hg =>
      injection hm with hm
      subst hm
      simp [Seg.rawList]
  have hr := rootParse_raw fileMatchFn hMF (lexAnsi s) 0 file h
  rw [hr]
  exact lexAnsi_raw s

/-- Witness for C1: `"TRUNCATE test"` parses to the explicit file segment
`c1file`, and the round-trip theorem applied there gives back exactly the
input characters. -/
theorem C1_round_trip_witness :
    rootParseAnsi "TRUNCATE test".data = .ok c1file ∧
    Seg.rawList c1file.segments = "TRUNCATE test".data :=
  ⟨rfl, C1_round_trip "TRUNCATE test".data c1file rfl⟩

/-! ## C2: what happens on a partial match -/

/-- C2: parse errors ARE fatal in this code. Whenever the match the root
grammar returns leaves a non-empty unmatched remainder (with a non-empty
match), `root_parse` hits the `unimplemented!()` stub at ansi.rs 2439 and
panics instead of building a `FileSegment` with a `PRS` violation; the
claim's own example `"SELECT 1 + (2 "` lands in the sibling stub at ansi.rs
2437 (no committed match in the embedded grammar slice) — both stubs are
the `panicUnimplemented` outcome, and no branch of `root_parse` produces a
violation. -/
theorem C2_root_parse_panics_on_unmatched :
    (∀ (matchFn : List Seg → Except Unit MatchResult) (segments : List Seg)
      (uuid : Nat) (mr : MatchResult),
      rootStartIdx segments ≠ rootEndIdx segments →
      matchFn ((segments.drop (rootStartIdx segments)).take
        (rootEndIdx segments - rootStartIdx segments)) = .ok mr →
      mr.matched_segments ≠ [] →
      mr.unmatched_segments ≠ [] →
      root_parse matchFn segments uuid = .panicUnimplemented) ∧
    rootParseAnsi "SELECT 1 + (2 ".data = .panicUnimplemented := by
  constructor
  · intro matchFn segments uuid mr hne hm hmm hun
    obtain ⟨a, as, hms⟩ : ∃ a as, mr.matched_segments = a :: as := by
      cases hc : mr.matched_segments with
      | nil => exact absurd hc hmm
      | cons a as => exact ⟨a, as, rfl⟩
    obtain ⟨b, bs, hus⟩ : ∃ b bs, mr.unmatched_segments = b :: bs := by
      cases hc : mr.unmatched_segments with
      | nil => exact absurd hc hun
      | cons b bs => exact ⟨b, bs, rfl⟩
    unfold root_parse
    rw [if_neg hne, hm]
    simp [MatchResult.has_match, hms, hus]
  · rfl

/-- Witness for C2: at the concrete two-token stream `c2segs` with the
match function `c2fn` (one token matched, one unmatched), every hypothesis
holds and `root_parse` panics, by the theorem itself. -/
theorem C2_root_parse_panics_on_unmatched_witness :
    rootStartIdx c2segs ≠ rootEndIdx c2segs ∧
    root_parse c2fn c2segs 0 = .panicUnimplemented :=
  ⟨by decide,
   C2_root_parse_panics_on_unmatched.1 c2fn c2segs 0
     { matched_segments := [Seg.leaf "word" ['a'] none],
       unmatched_segments := [Seg.leaf "word" ['b'] none] }
     (by decide) rfl (List.cons_ne_nil _ _) (List.cons_ne_nil _ _)⟩

/-! ## C9: whitespace segments and line breaks -/

/-- C9 counterexample: the claim says line breaks are ALWAYS emitted as
separate newline segments. On the concrete input `'a\nb'` (a single-quoted
string literal containing a line break) the ANSI lexer emits no newline
segment at all: the line break stays inside the single `single_quote`
segment. -/
theorem C9_counterexample :
    ('\n' ∈ [squoteC, 'a', '\n', 'b', squoteC]) ∧
    (lexAnsi [squoteC, 'a', '\n', 'b', squoteC]).any
      (fun seg => seg.typeOf == "newline") = false :=
  ⟨by decide, rfl⟩

/-- C9 (amended): for every input, no segment of kind `whitespace` produced
by the ANSI lexer contains a newline or carriage-return character
(universally, including trimmer-produced whitespace inside subdivided block
comments); line breaks are emitted as separate `newline` segments when
matched at top level or by the block-comment subdivider — but not when they
fall inside a quoted literal, which keeps them in its own segment. -/
theorem C9_whitespace_excludes_line_breaks :
    (∀ s : List Char, (lexAnsi s).all noCRLF = true) ∧
    lexAnsi ['a', '\n', 'b'] =
      [Seg.leaf "word" ['a'] none, Seg.leaf "newline" ['\n'] none,
       Seg.leaf "word" ['b'] none, Seg.leaf "end_of_file" [] none] ∧
    lexAnsi ['/', '*', 'a', '\n', ' ', 'b', '*', '/'] =
      [Seg.leaf "block_comment" ['/', '*', 'a'] none,
       Seg.leaf "newline" ['\n'] none,
       Seg.leaf "whitespace" [' '] none,
       Seg.leaf "block_comment" ['b', '*', '/'] none,
       Seg.leaf "end_of_file" [] none] :=
  ⟨lexAnsi_noCRLF, rfl, rfl⟩

end Sqruff
